import Mathlib

/-!
Verification development for the keke agent runtime (Go).

We shallowly embed the action-execution engine: the permission gate, the
action dispatcher (`executeAction` and its handlers from `ask.go` /
`utils.go`), the snapshot store (`createSnapshot` from `ask.go` and from the
tool-call module), the rollback/restore step (`rollback.go`), the tool-call
argument normalizer (`parseCommandArgs` and friends), the directory walk of
`handleListFiles`, and the conversation loop of `ask.go`.

The filesystem is modelled as a partial map from path strings to file
contents.  OS-level path resolution of `.` / `..` / duplicate slashes is
lexical, so `os.ReadFile` / `os.WriteFile` are modelled as lookups and
updates at the `filepath.Clean`-normalised key, with all keys taken relative
to the project root (the process working directory).  Interactive input,
the host shell and the wall clock are inputs of the model (fields of
`World`).
-/

namespace Keke

/-- A filesystem: file path (relative to the project root) to content. -/
abbrev Fs := String → Option String

/-- Raw pointwise update of a filesystem at an (already normalised) key. -/
def fsUpdate (fs : Fs) (key v : String) : Fs :=
  fun q => if q = key then some v else fs q

/-! ## String primitives

Kernel-reducible models of the Go `strings` operations the engine uses
(`strings.Split` on a one-character separator, `strings.HasPrefix`,
`strings.HasSuffix`, `strings.ToLower`). -/

/-- Split a character list on a separator character (`strings.Split`
semantics: the empty input yields one empty field). -/
def splitOnChar (sep : Char) : List Char → List (List Char)
  | [] => [[]]
  | c :: rest =>
    let r := splitOnChar sep rest
    if c = sep then [] :: r
    else
      match r with
      | [] => [[c]]
      | g :: gs => (c :: g) :: gs

/-- `strings.Split` of a string on a one-character separator. -/
def strSplitChar (s : String) (sep : Char) : List String :=
  (splitOnChar sep s.toList).map String.mk

/-- `strings.HasPrefix`. -/
def strStartsWith (s pre : String) : Bool :=
  pre.toList.isPrefixOf s.toList

/-- `strings.HasSuffix`. -/
def strEndsWith (s suf : String) : Bool :=
  List.isSuffixOf suf.toList s.toList

/-- `strings.ToLower`. -/
def strToLower (s : String) : String :=
  String.mk (s.toList.map Char.toLower)

/-! ## `path/filepath` primitives (Go standard library, Unix rules) -/

/-- The component stack of Go's `filepath.Clean`: components are processed in
order; `""` and `"."` are dropped, `".."` pops a previous non-`".."`
component (or is kept when the path is relative and nothing can be popped,
or dropped at the root of a rooted path).  The stack is kept reversed. -/
def cleanStack (rooted : Bool) : List String → List String → List String
  | stack, [] => stack
  | stack, c :: rest =>
    if c = "" || c = "." then cleanStack rooted stack rest
    else if c = ".." then
      match stack with
      | [] => if rooted then cleanStack rooted [] rest
              else cleanStack rooted [".."] rest
      | top :: below =>
        if top = ".." then cleanStack rooted (".." :: top :: below) rest
        else cleanStack rooted below rest
    else cleanStack rooted (c :: stack) rest

/-- Go `filepath.Clean` (Unix separator). -/
def cleanFilepath (p : String) : String :=
  let rooted := strStartsWith p "/"
  let stack := (cleanStack rooted [] (strSplitChar p '/')).reverse
  let body := String.intercalate "/" stack
  if rooted then (if body = "" then "/" else "/" ++ body)
  else if body = "" then "." else body

/-- Go `filepath.Base` (Unix separator): last non-empty path element;
`"."` for the empty path, `"/"` when the path consists only of slashes. -/
def filepathBase (p : String) : String :=
  if p = "" then "."
  else
    match (((strSplitChar p '/')).filter (fun c => c ≠ "")).getLast? with
    | some c => c
    | none => "/"

/-- `os.ReadFile`: lexical resolution of the requested path. -/
def osRead (fs : Fs) (p : String) : Option String :=
  fs (cleanFilepath p)

/-- `os.WriteFile` (parent directories assumed creatable): the write lands at
the lexically resolved path. -/
def osWrite (fs : Fs) (p c : String) : Fs :=
  fsUpdate fs (cleanFilepath p) c

/-! ## Permissions (`permissions.json`) and world state -/

/-- The `Permissions` struct persisted per project. -/
structure Permissions where
  read : Bool
  write : Bool
  execute : Bool
deriving DecidableEq, Repr

/-- A directory tree, used by the `handleListFiles` walk. -/
inductive Entry where
  | file (name : String)
  | dir (name : String) (children : List Entry)
deriving Repr

/-- Name of a tree entry. -/
def Entry.name : Entry → String
  | .file n => n
  | .dir n _ => n

/-- The state the handlers act on.  `userInput` is the line the user would
type at the next interactive prompt; `prompts` counts permission prompts
shown; `execs` records commands handed to the host shell; `readsLog` records
file reads performed; `shell` is the host shell (combined output, success);
`tree` is the directory tree rooted at the path a listing is requested for;
`ts` is the current `time.Now().Format("20060102_150405")` timestamp. -/
structure World where
  fs : Fs
  perms : Permissions
  userInput : String
  prompts : Nat
  execs : List String
  readsLog : List String
  shell : String → String × Bool
  tree : Entry
  ts : String

/-- Read of a file by a handler, recorded in the read log. -/
def wRead (w : World) (p : String) : Option String × World :=
  (osRead w.fs p, { w with readsLog := p :: w.readsLog })

/-- Write of a file by a handler. -/
def wWrite (w : World) (p c : String) : World :=
  { w with fs := osWrite w.fs p c }

/-- `checkPermission` (ask.go): pure read of the persisted grants; the
permission file read never fails (missing file yields all-false grants). -/
def checkPermission (perms : Permissions) (permType : String) : Bool :=
  match permType with
  | "read" => perms.read
  | "write" => perms.write
  | "execute" => perms.execute
  | _ => false

/-- Setting the single grant chosen by `requestPermission` on acceptance. -/
def grantPerm (perms : Permissions) (permType : String) : Permissions :=
  match permType with
  | "read" => { perms with read := true }
  | "write" => { perms with write := true }
  | "execute" => { perms with execute := true }
  | _ => perms

/-- The affirmative answers accepted by `requestPermission`:
case-insensitive `y` / `yes`. -/
def userAccepts (input : String) : Bool :=
  strToLower input = "y" || strToLower input = "yes"

/-- `requestPermission` (ask.go): shows one prompt, reads one line; on
acceptance persists the single corresponding grant and returns true; on
refusal persists nothing and returns false. -/
def requestPermission (w : World) (permType : String) : Bool × World :=
  let w' := { w with prompts := w.prompts + 1 }
  if userAccepts w.userInput then
    (true, { w' with perms := grantPerm w'.perms permType })
  else
    (false, w')

/-! ## Snapshot store -/

/-- `projectSnapshotsDir()` relative to the project root. -/
def snapshotsDir : String := ".keke/snapshots"

/-- The snapshot file name `fmt.Sprintf("%s.%s.snap", filepath.Base(filePath),
timestamp)`: only the base name of the written path is recorded. -/
def snapName (path ts : String) : String :=
  filepathBase path ++ "." ++ ts ++ ".snap"

/-- The filesystem key a snapshot of `path` taken at `ts` is stored under
(`filepath.Join(projectSnapshotsDir(), snapshotName)`). -/
def snapKeyOf (path ts : String) : String :=
  cleanFilepath (snapshotsDir ++ "/" ++ snapName path ts)

/-- `createSnapshot` from `ask.go` (also `keke-fixed/utils.go`): reads the
target and, when the read fails (in particular when the target does not
exist), returns that error; otherwise writes the backup.  The returned
`Bool` is `true` for a `nil` error. -/
def createSnapshotAsk (w : World) (path : String) : Bool × World :=
  match wRead w path with
  | (none, w') => (false, w')
  | (some content, w') =>
    (true, wWrite w' (snapshotsDir ++ "/" ++ snapName path w'.ts) content)

/-- `createSnapshot` from the tool-call module (`src/unnamed/part_003`):
an `os.Stat` existence check first — a missing target is a no-op success. -/
def createSnapshotCode (w : World) (path : String) : Bool × World :=
  match osRead w.fs path with
  | none => (true, w)
  | some _ =>
    match wRead w path with
    | (none, w') => (false, w')
    | (some content, w') =>
      (true, wWrite w' (snapshotsDir ++ "/" ++ snapName path w'.ts) content)

/-! ## Actions and handlers -/

/-- The `Action` struct (file/command fields; the research-specific fields
play no role in the dispatcher paths modelled here). -/
structure Action where
  type : String
  path : String := ""
  content : String := ""
  command : String := ""
deriving Repr

/-- `handleReadFile` (ask.go). -/
def handleReadFile (w : World) (a : Action) : String × World :=
  let proceed := fun (w : World) =>
    match wRead w a.path with
    | (some content, w') => (content, w')
    | (none, w') => ("Error reading file: " ++ a.path, w')
  if checkPermission w.perms "read" then proceed w
  else
    match requestPermission w "read" with
    | (true, w') => proceed w'
    | (false, w') => ("Permission denied by user", w')

/-- `handleWriteFile` as in `ask.go` (lines 209-232): snapshot, then a direct
`os.WriteFile` on the requested path. -/
def handleWriteFileAsk (w : World) (a : Action) : String × World :=
  let proceed := fun (w : World) =>
    let w' := (createSnapshotAsk w a.path).2
    let w'' := wWrite w' a.path a.content
    ("Successfully wrote " ++ toString a.content.utf8ByteSize ++ " bytes to "
       ++ a.path, w'')
  if checkPermission w.perms "write" then proceed w
  else
    match requestPermission w "write" with
    | (true, w') => proceed w'
    | (false, w') => ("Permission denied by user", w')

/-- `writeFileToWorkspace` (utils.go lines 66-90): clean the path, reject a
cleaned path starting with `".."`, create parent directories, write at
`filepath.Join(cwd, cleanPath)`.  Returns the error text, or `none`. -/
def writeFileToWorkspace (w : World) (filename content : String) :
    Option String × World :=
  let cleanPath := cleanFilepath filename
  if strStartsWith cleanPath ".." then
    (some "invalid path: cannot write outside project directory", w)
  else
    (none, { w with fs := fsUpdate w.fs cleanPath content })

/-- `handleWriteFile` as in `utils.go` (lines 44-64): snapshot, then
`writeFileToWorkspace`. -/
def handleWriteFileWs (w : World) (a : Action) : String × World :=
  let proceed := fun (w : World) =>
    let w' := (createSnapshotAsk w a.path).2
    match writeFileToWorkspace w' a.path a.content with
    | (some e, w'') => ("Error writing file: " ++ e, w'')
    | (none, w'') =>
      ("Successfully wrote " ++ toString a.content.utf8ByteSize ++ " bytes to "
         ++ a.path, w'')
  if checkPermission w.perms "write" then proceed w
  else
    match requestPermission w "write" with
    | (true, w') => proceed w'
    | (false, w') => ("Permission denied by user", w')

/-- `handleExecuteCommand` (ask.go): spawn the shell on the literal command
string; a failure becomes a textual result carrying the combined output. -/
def handleExecuteCommand (w : World) (a : Action) : String × World :=
  let proceed := fun (w : World) =>
    let w' := { w with execs := a.command :: w.execs }
    match w'.shell a.command with
    | (output, true) => (output, w')
    | (output, false) => ("Command failed\nOutput: " ++ output, w')
  if checkPermission w.perms "execute" then proceed w
  else
    match requestPermission w "execute" with
    | (true, w') => proceed w'
    | (false, w') => ("Permission denied by user", w')

/-! ## The `handleListFiles` walk -/

/-- `strings.Contains` on explicit character lists. -/
def listContainsSub (s sub : List Char) : Bool :=
  match s with
  | [] => sub.isEmpty
  | _ :: rest => sub.isPrefixOf s || listContainsSub rest sub

/-- `strings.Contains`. -/
def strContains (s sub : String) : Bool :=
  listContainsSub s.toList sub.toList

/-- The exclusion test of `handleListFiles`: a SUBSTRING match of the walked
path against `".keke"`, `".git"` and `"node_modules"`. -/
def isExcludedPath (p : String) : Bool :=
  strContains p ".keke" || strContains p ".git" || strContains p "node_modules"

/-- `filepath.Join` of a directory and a child name, as used by
`filepath.Walk`. -/
def joinPath (dir name : String) : String :=
  cleanFilepath (dir ++ "/" ++ name)

mutual

/-- `filepath.Walk` as driven by the `handleListFiles` callback: an excluded
directory is skipped whole (`filepath.SkipDir`), an excluded file is
dropped, every other file path is collected.  `p` is the path of the entry
being visited. -/
def walkEntry (p : String) : Entry → List String
  | .file _ => if isExcludedPath p then [] else [p]
  | .dir _ children =>
    if isExcludedPath p then [] else walkChildren p children

/-- Walk of the children of the directory at `p`. -/
def walkChildren (p : String) : List Entry → List String
  | [] => []
  | e :: rest => walkEntry (joinPath p e.name) e ++ walkChildren p rest

end

/-- `handleListFiles` (ask.go): permission-gated recursive enumeration,
newline-joined. -/
def handleListFiles (w : World) (a : Action) : String × World :=
  let dir := if a.path = "" then "." else a.path
  let proceed := fun (w : World) =>
    (String.intercalate "\n" (walkEntry dir w.tree), w)
  if checkPermission w.perms "read" then proceed w
  else
    match requestPermission w "read" with
    | (true, w') => proceed w'
    | (false, w') => ("Permission denied by user", w')

/-- `executeAction` (ask.go / utils.go): route by the action's type string. -/
def executeAction (w : World) (a : Action) : String × World :=
  match a.type with
  | "read_file" => handleReadFile w a
  | "write_file" => handleWriteFileAsk w a
  | "execute_command" => handleExecuteCommand w a
  | "list_files" => handleListFiles w a
  | t => ("Unknown action type: " ++ t, w)

/-- The permission kind each of the four generic action types is gated on. -/
def permTypeOf (actionType : String) : String :=
  match actionType with
  | "read_file" => "read"
  | "list_files" => "read"
  | "write_file" => "write"
  | "execute_command" => "execute"
  | _ => ""

/-! ## Rollback (`rollback.go`) -/

/-- The `SnapshotInfo` record built while scanning the snapshot
directory. -/
structure SnapshotInfo where
  originalFile : String
  timestamp : String
  snapshotFile : String
  path : String
deriving DecidableEq, Repr

/-- Parsing one snapshot directory entry (`rollback.go` lines 37-57):
names not ending in `.snap` or with fewer than three dot-separated parts are
skipped; otherwise `originalFile` is everything before the last two parts
(re-joined with dots) and `timestamp` the second-to-last part. -/
def parseSnapEntry (name : String) : Option SnapshotInfo :=
  if strEndsWith name ".snap" then
    let parts := strSplitChar name '.'
    if parts.length < 3 then none
    else some
      { originalFile := String.intercalate "." (parts.take (parts.length - 2))
        timestamp := (parts.drop (parts.length - 2)).headD ""
        snapshotFile := name
        path := cleanFilepath (snapshotsDir ++ "/" ++ name) }
  else none

/-- The restore step of `handleRollback` (lines 113-127), after the user has
chosen a snapshot and confirmed: read the snapshot file, write its bytes to
`snapshot.OriginalFile`.  `true` means the restore succeeded. -/
def restoreSnapshot (w : World) (snap : SnapshotInfo) : Bool × World :=
  match osRead w.fs snap.path with
  | none => (false, w)
  | some content => (true, wWrite w snap.originalFile content)

/-! ## Conversation loop (`ask.go` lines 76-128) -/

/-- The per-round reply of the remote collaborator. -/
structure AIResponse where
  message : String
  actions : List Action
  creditsUsed : Nat
  done : Bool

/-- How a run of `conversationLoop` ends. -/
inductive LoopOutcome where
  /-- A round returned zero actions: the loop prints the message and
  `"Total credits used: <reported>"` and returns. -/
  | finished (rounds : Nat) (reported : Nat) (message : String)
  /-- `callAI` failed: the loop aborts immediately. -/
  | aborted (rounds : Nat)
  /-- The iteration cap was hit: a warning, no credits reported. -/
  | capReached
deriving DecidableEq, Repr

/-- Dispatching the actions of one round strictly in order. -/
def execActions (w : World) : List Action → World
  | [] => w
  | a :: rest => execActions (executeAction w a).2 rest

/-- The body of `conversationLoop`: `iterationsLeft` counts down from the
cap, `script` holds the successive `callAI` results (an exhausted script is
a communication failure), `roundsDone` counts completed rounds. -/
def convLoopFrom (w : World) (iterationsLeft roundsDone : Nat)
    (script : List AIResponse) : LoopOutcome :=
  match iterationsLeft with
  | 0 => .capReached
  | n + 1 =>
    match script with
    | [] => .aborted roundsDone
    | resp :: rest =>
      if resp.actions.isEmpty then
        .finished (roundsDone + 1) resp.creditsUsed resp.message
      else
        convLoopFrom (execActions w resp.actions) n (roundsDone + 1) rest

/-- `conversationLoop` (ask.go): `maxIterations := 20`.  On a round with zero
actions it reports `response.CreditsUsed` — the credit cost of that final
round — as `"Total credits used"`. -/
def conversationLoop (w : World) (script : List AIResponse) : LoopOutcome :=
  convLoopFrom w 20 0 script

/-! ## Tool-call argument normalizer (`src/unnamed/part_002`)

The raw argument payload is opaque bytes.  The normalizer's behaviour
depends only on (a) the JSON value the bytes parse to (or parse failure),
and (b), when that value is a JSON string, the JSON value the string's
content parses to.  `RawMsg` records exactly these observations: `bytes`
is the raw payload, `top` its parse, `inner` the parse of the decoded
string content (meaningful only when `top` is a JSON string or null). -/

/-- A JSON value. -/
inductive JVal where
  | jnull
  | jbool (b : Bool)
  | jnum (n : Int)
  | jstr (s : String)
  | jarr (elems : List JVal)
  | jobj (fields : List (String × JVal))

/-- A raw tool-call argument payload together with its decode results. -/
structure RawMsg where
  bytes : String
  top : Option JVal
  inner : Option JVal

/-- Sequential decoding of one string-typed struct field from a JSON
object's members, Go `encoding/json` style: later duplicates overwrite,
`null` leaves the value unchanged, a member of any other type aborts the
whole unmarshal (`none`). -/
def unmStrField (key : String) : List (String × JVal) → Option String →
    Option (Option String)
  | [], acc => some acc
  | (k, v) :: rest, acc =>
    if k = key then
      match v with
      | .jstr s => unmStrField key rest (some s)
      | .jnull => unmStrField key rest acc
      | _ => none
    else unmStrField key rest acc

/-- `json.Unmarshal` into `struct { Command string }`: only an object (or
null) succeeds; an unset field is the zero value `""`. -/
def unmarshalCmd : JVal → Option String
  | .jobj fields => (unmStrField "command" fields none).map (fun v => v.getD "")
  | .jnull => some ""
  | _ => none

/-- `json.Unmarshal` into `struct { Path string }`. -/
def unmarshalPath : JVal → Option String
  | .jobj fields => (unmStrField "path" fields none).map (fun v => v.getD "")
  | .jnull => some ""
  | _ => none

/-- Sequential decoding of the two members of
`struct { Path string; Content string }`. -/
def unmWriteFields : List (String × JVal) → Option String → Option String →
    Option (Option String × Option String)
  | [], p, c => some (p, c)
  | (k, v) :: rest, p, c =>
    if k = "path" then
      match v with
      | .jstr s => unmWriteFields rest (some s) c
      | .jnull => unmWriteFields rest p c
      | _ => none
    else if k = "content" then
      match v with
      | .jstr s => unmWriteFields rest p (some s)
      | .jnull => unmWriteFields rest p c
      | _ => none
    else unmWriteFields rest p c

/-- `json.Unmarshal` into `struct { Path string; Content string }`. -/
def unmarshalWrite : JVal → Option (String × String)
  | .jobj fields =>
    (unmWriteFields fields none none).map (fun v => (v.1.getD "", v.2.getD ""))
  | .jnull => some ("", "")
  | _ => none

/-- `json.Unmarshal` into a Go `string`: a JSON string yields its content,
null succeeds leaving the zero value. -/
def unmarshalString : JVal → Option String
  | .jstr s => some s
  | .jnull => some ""
  | _ => none

/-- The string-payload branch of `parseCommandArgs`: decode the payload as a
JSON string, re-decode its content as the struct; a non-empty command wins,
otherwise the decoded string itself; if the payload is not a JSON string,
the raw bytes. -/
def parseCommandFallback (r : RawMsg) : String :=
  match r.top.bind unmarshalString with
  | some s =>
    match r.inner.bind unmarshalCmd with
    | some c => if c = "" then s else c
    | none => s
  | none => r.bytes

/-- `parseCommandArgs` (part_002 lines 174-197). -/
def parseCommandArgs (r : RawMsg) : String :=
  match r.top.bind unmarshalCmd with
  | some c => if c = "" then parseCommandFallback r else c
  | none => parseCommandFallback r

/-- The string-payload branch of `parseReadFileArgs`: a non-empty re-decoded
path wins, then a non-empty decoded string, then the default `"."`. -/
def parseReadFallback (r : RawMsg) : String :=
  match r.top.bind unmarshalString with
  | some s =>
    match r.inner.bind unmarshalPath with
    | some p => if p = "" then (if s = "" then "." else s) else p
    | none => if s = "" then "." else s
  | none => "."

/-- `parseReadFileArgs` (part_002 lines 227-251). -/
def parseReadFileArgs (r : RawMsg) : String :=
  match r.top.bind unmarshalPath with
  | some p => if p = "" then parseReadFallback r else p
  | none => parseReadFallback r

/-- The string-payload branch of `parseListFilesArgs` (the source duplicates
the body of the read-file version verbatim). -/
def parseListFallback (r : RawMsg) : String :=
  match r.top.bind unmarshalString with
  | some s =>
    match r.inner.bind unmarshalPath with
    | some p => if p = "" then (if s = "" then "." else s) else p
    | none => if s = "" then "." else s
  | none => "."

/-- `parseListFilesArgs` (part_002 lines 253-277). -/
def parseListFilesArgs (r : RawMsg) : String :=
  match r.top.bind unmarshalPath with
  | some p => if p = "" then parseListFallback r else p
  | none => parseListFallback r

/-- The string-payload branch of `parseWriteFileArgs`: a successful re-decode
of the string content is returned with no emptiness check; everything else
collapses to `("", "")`. -/
def parseWriteFallback (r : RawMsg) : String × String :=
  match r.top.bind unmarshalString with
  | some _ =>
    match r.inner.bind unmarshalWrite with
    | some pc => pc
    | none => ("", "")
  | none => ("", "")

/-- `parseWriteFileArgs` (part_002 lines 199-225): the direct decode is used
only when its path is non-empty. -/
def parseWriteFileArgs (r : RawMsg) : String × String :=
  match r.top.bind unmarshalWrite with
  | some pc => if pc.1 = "" then parseWriteFallback r else pc
  | none => parseWriteFallback r

/-! The decode-strategy chain of the spec's normalizer contract (§4.2,
steps 1-3), used to express "no decode strategy extracts a non-empty
primary field". -/

/-- Some strategy of the command schema extracts a non-empty command: a
direct struct decode (step 1), a double decode through a string payload
(step 2), or the bare decoded string itself (step 3). -/
def CmdExtracted (r : RawMsg) : Prop :=
  (r.top.bind unmarshalCmd).getD "" ≠ "" ∨
  ((r.top.bind unmarshalString).isSome = true ∧
    (r.inner.bind unmarshalCmd).getD "" ≠ "") ∨
  (r.top.bind unmarshalString).getD "" ≠ ""

instance (r : RawMsg) : Decidable (CmdExtracted r) := by
  unfold CmdExtracted; infer_instance

/-- Some strategy of the one-field path schema extracts a non-empty path. -/
def PathExtracted (r : RawMsg) : Prop :=
  (r.top.bind unmarshalPath).getD "" ≠ "" ∨
  ((r.top.bind unmarshalString).isSome = true ∧
    (r.inner.bind unmarshalPath).getD "" ≠ "") ∨
  (r.top.bind unmarshalString).getD "" ≠ ""

instance (r : RawMsg) : Decidable (PathExtracted r) := by
  unfold PathExtracted; infer_instance

/-- Some strategy of the two-field write schema extracts a non-empty path
(the primary field; the write schema has no bare-string strategy). -/
def WriteExtracted (r : RawMsg) : Prop :=
  (r.top.bind unmarshalWrite).elim "" Prod.fst ≠ "" ∨
  ((r.top.bind unmarshalString).isSome = true ∧
    (r.inner.bind unmarshalWrite).elim "" Prod.fst ≠ "")

instance (r : RawMsg) : Decidable (WriteExtracted r) := by
  unfold WriteExtracted; infer_instance

/-- Denial part of the permission gate: a declined prompt yields the
denial text and leaves filesystem, shell log, read log and grants
untouched. -/
lemma gate_denial (w : World) (a : Action)
    (hk : a.type = "read_file" ∨ a.type = "write_file" ∨
          a.type = "execute_command" ∨ a.type = "list_files")
    (h1 : checkPermission w.perms (permTypeOf a.type) = false)
    (h2 : userAccepts w.userInput = false) :
    (executeAction w a).1 = "Permission denied by user" ∧
    (executeAction w a).2.fs = w.fs ∧
    (executeAction w a).2.execs = w.execs ∧
    (executeAction w a).2.readsLog = w.readsLog ∧
    (executeAction w a).2.perms = w.perms := by
  obtain ⟨ty, pa, ca, cm⟩ := a
  rcases hk with h | h | h | h <;> subst h <;>
    simp only [permTypeOf, checkPermission] at h1 <;>
    simp only [executeAction, handleReadFile, handleWriteFileAsk,
      handleExecuteCommand, handleListFiles, requestPermission, h1, h2,
      checkPermission, Bool.false_eq_true, if_false, reduceIte] <;>
    simp

/-- Re-prompt part of the permission gate: a dispatch whose grant is
already true never shows a prompt. -/
lemma gate_no_reprompt (w : World) (a : Action)
    (hk : a.type = "read_file" ∨ a.type = "write_file" ∨
          a.type = "execute_command" ∨ a.type = "list_files")
    (h1 : checkPermission w.perms (permTypeOf a.type) = true) :
    (executeAction w a).2.prompts = w.prompts := by
  obtain ⟨ty, pa, ca, cm⟩ := a
  rcases hk with h | h | h | h <;> subst h <;>
    simp only [permTypeOf, checkPermission] at h1
  · rcases hx : osRead w.fs pa with _ | c <;>
      simp [executeAction, handleReadFile, checkPermission, wRead, h1, hx]
  · rcases hx : osRead w.fs pa with _ | c <;>
      simp [executeAction, handleWriteFileAsk, createSnapshotAsk,
        checkPermission, wRead, wWrite, h1, hx]
  · rcases hx : w.shell cm with ⟨out, b⟩
    cases b <;>
      simp [executeAction, handleExecuteCommand, checkPermission, h1, hx]
  · simp [executeAction, handleListFiles, checkPermission, h1]

/-- Stickiness part of the permission gate: an accepted prompt persists
the grant, so the kind's permission check succeeds afterwards. -/
lemma gate_grant (w : World) (a : Action)
    (hk : a.type = "read_file" ∨ a.type = "write_file" ∨
          a.type = "execute_command" ∨ a.type = "list_files")
    (h1 : checkPermission w.perms (permTypeOf a.type) = false)
    (h2 : userAccepts w.userInput = true) :
    checkPermission (executeAction w a).2.perms (permTypeOf a.type) = true := by
  obtain ⟨ty, pa, ca, cm⟩ := a
  rcases hk with h | h | h | h <;> subst h <;>
    simp only [permTypeOf, checkPermission] at h1 ⊢
  · rcases hx : w.fs (cleanFilepath pa) with _ | c <;>
      simp [executeAction, handleReadFile, requestPermission, checkPermission,
        wRead, osRead, grantPerm, h1, h2, hx]
  · rcases hx : w.fs (cleanFilepath pa) with _ | c <;>
      simp [executeAction, handleWriteFileAsk, createSnapshotAsk,
        requestPermission, checkPermission, wRead, wWrite, osRead, grantPerm,
        h1, h2, hx]
  · rcases hx : w.shell cm with ⟨out, b⟩
    cases b <;>
      simp [executeAction, handleExecuteCommand, requestPermission,
        checkPermission, grantPerm, h1, h2, hx]
  · simp [executeAction, handleListFiles, requestPermission, checkPermission,
      grantPerm, h1, h2]

/-- C2: for every generic action kind (read for `read_file` / `list_files`,
write for `write_file`, execute for `execute_command`): while the persisted
grant for the kind is false and the user declines the interactive prompt,
dispatching the action performs no filesystem write, no shell spawn and no
file read, leaves the grants unchanged, and yields the textual result
`"Permission denied by user"`; when the grant is true the dispatch shows no
prompt; and an accepted prompt persists the grant, so a subsequent same-kind
action finds `checkPermission` true and (by the second part) never prompts
again. -/
theorem permission_gate (w : World) (a : Action)
    (hk : a.type = "read_file" ∨ a.type = "write_file" ∨
          a.type = "execute_command" ∨ a.type = "list_files") :
    (checkPermission w.perms (permTypeOf a.type) = false →
      userAccepts w.userInput = false →
      (executeAction w a).1 = "Permission denied by user" ∧
      (executeAction w a).2.fs = w.fs ∧
      (executeAction w a).2.execs = w.execs ∧
      (executeAction w a).2.readsLog = w.readsLog ∧
      (executeAction w a).2.perms = w.perms) ∧
    (checkPermission w.perms (permTypeOf a.type) = true →
      (executeAction w a).2.prompts = w.prompts) ∧
    (checkPermission w.perms (permTypeOf a.type) = false →
      userAccepts w.userInput = true →
      checkPermission (executeAction w a).2.perms (permTypeOf a.type) = true) :=
  ⟨fun h1 h2 => gate_denial w a hk h1 h2,
   fun h1 => gate_no_reprompt w a hk h1,
   fun h1 h2 => gate_grant w a hk h1 h2⟩

/-!  # Claim theorems  -/



/-- Sample host shell for concrete worlds: every command succeeds with empty
output. -/
def sampleShell : String → String × Bool := fun _ => ("", true)

def sampleTree : Entry := .dir "." []

/-- A world with all three grants persisted false and a declining user. -/
def deniedWorld : World :=
  { fs := fun _ => none, perms := ⟨false, false, false⟩, userInput := "n",
    prompts := 0, execs := [], readsLog := [], shell := sampleShell,
    tree := sampleTree, ts := "20250101_120000" }

/-- C2 witness: a concrete `read_file` dispatch against all-false persisted
grants and a user who answers `n`. -/
theorem permission_gate_witness :
    checkPermission deniedWorld.perms (permTypeOf "read_file") = false ∧
    userAccepts deniedWorld.userInput = false ∧
    (executeAction deniedWorld ⟨"read_file", "a.txt", "", ""⟩).1 =
      "Permission denied by user" ∧
    (∀ q, (executeAction deniedWorld ⟨"read_file", "a.txt", "", ""⟩).2.fs q =
      deniedWorld.fs q) ∧
    (executeAction deniedWorld ⟨"read_file", "a.txt", "", ""⟩).2.execs =
      deniedWorld.execs :=
  have h := (permission_gate deniedWorld ⟨"read_file", "a.txt", "", ""⟩
    (Or.inl rfl)).1 (by decide) (by decide)
  ⟨by decide, by decide, h.1, fun q => by rw [h.2.1], h.2.2.1⟩

/-- A filesystem holding only the target `a.txt`. -/
def freshFs : Fs := fun q => if q = "a.txt" then some "old" else none

/-- A world with all grants persisted, target `a.txt` present and no
snapshot taken yet. -/
def freshWorld : World :=
  { fs := freshFs, perms := ⟨true, true, true⟩, userInput := "n",
    prompts := 0, execs := [], readsLog := [], shell := sampleShell,
    tree := sampleTree, ts := "20250101_120000" }

/-- C1 (amended): a `write_file` dispatch through the `utils.go` handler on
an existing target, when no snapshot file of the same name already exists
(no same-second collision) and the cleaned path is not rejected, first
creates exactly one new file — the snapshot, holding the target's pre-write
content, while the target is still untouched — and then overwrites the
target; nothing else changes.  The freshness hypothesis is forced by the
counterexample: the second-resolution timestamp makes same-second snapshot
names collide, in which case the existing snapshot is silently overwritten
and no new file appears. -/
theorem write_snapshot_fresh (w : World) (path content c : String)
    (hperm : w.perms.write = true)
    (hexist : osRead w.fs path = some c)
    (hfresh : w.fs (snapKeyOf path w.ts) = none)
    (hok : strStartsWith (cleanFilepath path) ".." = false) :
    (createSnapshotAsk w path).1 = true ∧
    (createSnapshotAsk w path).2.fs (snapKeyOf path w.ts) = some c ∧
    (createSnapshotAsk w path).2.fs (cleanFilepath path) = some c ∧
    (∀ q, q ≠ snapKeyOf path w.ts →
      (createSnapshotAsk w path).2.fs q = w.fs q) ∧
    (handleWriteFileWs w ⟨"write_file", path, content, ""⟩).1 =
      "Successfully wrote " ++ toString content.utf8ByteSize ++ " bytes to "
        ++ path ∧
    (handleWriteFileWs w ⟨"write_file", path, content, ""⟩).2.fs
      (cleanFilepath path) = some content ∧
    (handleWriteFileWs w ⟨"write_file", path, content, ""⟩).2.fs
      (snapKeyOf path w.ts) = some c ∧
    ∀ q, q ≠ snapKeyOf path w.ts → q ≠ cleanFilepath path →
      (handleWriteFileWs w ⟨"write_file", path, content, ""⟩).2.fs q =
        w.fs q := by
  have hne : cleanFilepath path ≠ snapKeyOf path w.ts := by
    intro h
    rw [osRead, h, hfresh] at hexist
    exact Option.noConfusion hexist
  have hsnap : (createSnapshotAsk w path).2.fs =
      fsUpdate w.fs (snapKeyOf path w.ts) c := by
    simp [createSnapshotAsk, wRead, hexist, wWrite, osWrite, snapKeyOf]
  have hfin : (handleWriteFileWs w ⟨"write_file", path, content, ""⟩).2.fs =
      fsUpdate (fsUpdate w.fs (snapKeyOf path w.ts) c)
        (cleanFilepath path) content := by
    simp [handleWriteFileWs, checkPermission, hperm, writeFileToWorkspace,
      hok, createSnapshotAsk, wRead, hexist, wWrite, osWrite, snapKeyOf]
  refine ⟨?_, ?_, ?_, ?_, ?_, ?_, ?_, ?_⟩
  · simp [createSnapshotAsk, wRead, hexist]
  · simp [hsnap, fsUpdate]
  · simp [hsnap, fsUpdate, hne]
    rw [osRead] at hexist
    exact hexist
  · intro q hq
    simp [hsnap, fsUpdate, hq]
  · simp [handleWriteFileWs, checkPermission, hperm, writeFileToWorkspace,
      hok, createSnapshotAsk, wRead, hexist]
  · simp [hfin, fsUpdate]
  · simp [hfin, fsUpdate, hne.symm]
  · intro q hq1 hq2
    simp [hfin, fsUpdate, hq1, hq2]

/-- C1 witness: the dispatch on the concrete world `freshWorld`. -/
theorem write_snapshot_fresh_witness :
    freshWorld.perms.write = true ∧
    osRead freshWorld.fs "a.txt" = some "old" ∧
    freshWorld.fs (snapKeyOf "a.txt" freshWorld.ts) = none ∧
    strStartsWith (cleanFilepath "a.txt") ".." = false ∧
    (createSnapshotAsk freshWorld "a.txt").2.fs
      (snapKeyOf "a.txt" freshWorld.ts) = some "old" ∧
    (handleWriteFileWs freshWorld ⟨"write_file", "a.txt", "new", ""⟩).2.fs
      (cleanFilepath "a.txt") = some "new" := by
  have h := write_snapshot_fresh freshWorld "a.txt" "new" "old"
    (by decide) (by decide) (by decide) (by decide)
  exact ⟨by decide, by decide, by decide, by decide, h.2.1, h.2.2.2.2.2.1⟩

/-- A filesystem where the target exists and a snapshot of the same name
(same base name, same second-resolution timestamp) already exists. -/
def collideFs : Fs := fun q =>
  if q = "a.txt" then some "old"
  else if q = ".keke/snapshots/a.txt.20250101_120000.snap" then some "stale"
  else none

/-- A world exhibiting the same-second snapshot-name collision. -/
def collideWorld : World :=
  { fs := collideFs, perms := ⟨true, true, true⟩, userInput := "n",
    prompts := 0, execs := [], readsLog := [], shell := sampleShell,
    tree := sampleTree, ts := "20250101_120000" }

/-- C1 counterexample: dispatching `write_file` on the existing target
`a.txt` while a snapshot named `a.txt.20250101_120000.snap` already exists
(a second write within the same clock second) creates no new file at all:
the old snapshot is overwritten in place.  This refutes the claim that
every such dispatch creates exactly one new snapshot file. -/
theorem snapshot_collision_no_new_file :
    osRead collideWorld.fs "a.txt" = some "old" ∧
    ¬ ∃ q, collideWorld.fs q = none ∧
      (handleWriteFileWs collideWorld
        ⟨"write_file", "a.txt", "new", ""⟩).2.fs q ≠ none := by
  have hq : ∀ q, (handleWriteFileWs collideWorld
      ⟨"write_file", "a.txt", "new", ""⟩).2.fs q =
      if q = "a.txt" then some "new"
      else if q = ".keke/snapshots/a.txt.20250101_120000.snap" then some "old"
      else collideFs q := fun q => rfl
  refine ⟨by decide, ?_⟩
  rintro ⟨q, hnone, hsome⟩
  rw [hq q] at hsome
  by_cases h1 : q = "a.txt"
  · subst h1
    simp [collideWorld, collideFs] at hnone
  · by_cases h2 : q = ".keke/snapshots/a.txt.20250101_120000.snap"
    · subst h2
      simp [collideWorld, collideFs] at hnone
    · rw [if_neg h1, if_neg h2] at hsome
      exact hsome hnone

/-- Rejection of a traversal path by the `utils.go` write handler when the
write grant is already held: the result is the error text, the target is
not modified, and only the snapshot key can change. -/
lemma ws_rejected_when_permitted (w : World) (path content : String)
    (hperm : w.perms.write = true)
    (hp : strStartsWith (cleanFilepath path) ".." = true) :
    (handleWriteFileWs w ⟨"write_file", path, content, ""⟩).1 =
      "Error writing file: invalid path: cannot write outside project directory" ∧
    (handleWriteFileWs w ⟨"write_file", path, content, ""⟩).2.fs
      (cleanFilepath path) = w.fs (cleanFilepath path) ∧
    ∀ q, q ≠ snapKeyOf path w.ts →
      (handleWriteFileWs w ⟨"write_file", path, content, ""⟩).2.fs q =
        w.fs q := by
  rcases hx : w.fs (cleanFilepath path) with _ | c
  · refine ⟨?_, ?_, ?_⟩ <;>
      simp [handleWriteFileWs, checkPermission, hperm, createSnapshotAsk,
        wRead, osRead, wWrite, writeFileToWorkspace, hp, hx]
  · have hmid : (handleWriteFileWs w ⟨"write_file", path, content, ""⟩).2.fs =
        fsUpdate w.fs (snapKeyOf path w.ts) c := by
      simp [handleWriteFileWs, checkPermission, hperm, createSnapshotAsk,
        wRead, osRead, wWrite, osWrite, writeFileToWorkspace, hp, hx,
        snapKeyOf]
    refine ⟨?_, ?_, ?_⟩
    · simp [handleWriteFileWs, checkPermission, hperm, createSnapshotAsk,
        wRead, osRead, wWrite, writeFileToWorkspace, hp, hx]
    · rw [hmid]
      by_cases he : cleanFilepath path = snapKeyOf path w.ts
      · rw [fsUpdate, if_pos he]
      · rw [fsUpdate, if_neg he]
        exact hx
    · intro q hq
      rw [hmid, fsUpdate, if_neg hq]

/-- C3 (amended): for every `write_file` dispatch through the `utils.go`
handler whose cleaned target path starts with `".."`, the write itself is
always rejected — the result is the `writeFileToWorkspace` error (or the
permission denial), never the success message — the target file is not
created or modified, and no file other than (possibly) the pre-write backup
snapshot of the existing target is created or modified.  The claim's
stronger "no file is created" is refuted by the counterexample: the
snapshot is taken before the path check. -/
theorem traversal_write_rejected (w : World) (path content : String)
    (hp : strStartsWith (cleanFilepath path) ".." = true) :
    ((handleWriteFileWs w ⟨"write_file", path, content, ""⟩).1 =
        "Error writing file: invalid path: cannot write outside project directory" ∨
      (handleWriteFileWs w ⟨"write_file", path, content, ""⟩).1 =
        "Permission denied by user") ∧
    (handleWriteFileWs w ⟨"write_file", path, content, ""⟩).2.fs
      (cleanFilepath path) = w.fs (cleanFilepath path) ∧
    ∀ q, q ≠ snapKeyOf path w.ts →
      (handleWriteFileWs w ⟨"write_file", path, content, ""⟩).2.fs q =
        w.fs q := by
  rcases hperm : w.perms.write with _ | _
  · rcases hua : userAccepts w.userInput with _ | _
    · have hres : handleWriteFileWs w ⟨"write_file", path, content, ""⟩ =
          ("Permission denied by user",
            { w with prompts := w.prompts + 1 }) := by
        simp [handleWriteFileWs, checkPermission, hperm, requestPermission,
          hua]
      rw [hres]
      exact ⟨Or.inr rfl, rfl, fun q _ => rfl⟩
    · have hsame : handleWriteFileWs w ⟨"write_file", path, content, ""⟩ =
          handleWriteFileWs
            { w with
                prompts := w.prompts + 1
                perms := grantPerm w.perms "write" }
            ⟨"write_file", path, content, ""⟩ := by
        simp [handleWriteFileWs, checkPermission, requestPermission, hperm,
          hua, grantPerm]
      rw [hsame]
      have h := ws_rejected_when_permitted
        { w with
            prompts := w.prompts + 1
            perms := grantPerm w.perms "write" }
        path content (by simp [grantPerm]) hp
      exact ⟨Or.inl h.1, h.2.1, h.2.2⟩
  · have h := ws_rejected_when_permitted w path content hperm hp
    exact ⟨Or.inl h.1, h.2.1, h.2.2⟩

/-- C3 witness: the dispatch of `../x` against `freshWorld`. -/
theorem traversal_write_rejected_witness :
    strStartsWith (cleanFilepath "../x") ".." = true ∧
    (((handleWriteFileWs freshWorld ⟨"write_file", "../x", "v", ""⟩).1 =
        "Error writing file: invalid path: cannot write outside project directory" ∨
      (handleWriteFileWs freshWorld ⟨"write_file", "../x", "v", ""⟩).1 =
        "Permission denied by user") ∧
    (handleWriteFileWs freshWorld ⟨"write_file", "../x", "v", ""⟩).2.fs
      (cleanFilepath "../x") = freshWorld.fs (cleanFilepath "../x") ∧
    ∀ q, q ≠ snapKeyOf "../x" freshWorld.ts →
      (handleWriteFileWs freshWorld ⟨"write_file", "../x", "v", ""⟩).2.fs q =
        freshWorld.fs q) :=
  ⟨by decide, traversal_write_rejected freshWorld "../x" "v" (by decide)⟩

/-- A filesystem where a file outside the project root exists. -/
def outsideFs : Fs := fun q => if q = "../secret" then some "data" else none

/-- A world whose parent directory holds `../secret`. -/
def outsideWorld : World :=
  { fs := outsideFs, perms := ⟨true, true, true⟩, userInput := "n",
    prompts := 0, execs := [], readsLog := [], shell := sampleShell,
    tree := sampleTree, ts := "20250101_120000" }

/-- C3 counterexample: a `write_file` dispatch on `../secret` (cleaned path
starts with `".."`) is rejected with an error and the target is untouched,
but a new snapshot file of the pre-existing out-of-tree target is created
before the rejection — refuting "no file is created or modified". -/
theorem traversal_rejection_writes_snapshot :
    strStartsWith (cleanFilepath "../secret") ".." = true ∧
    (handleWriteFileWs outsideWorld
      ⟨"write_file", "../secret", "evil", ""⟩).1 =
      "Error writing file: invalid path: cannot write outside project directory" ∧
    outsideWorld.fs ".keke/snapshots/secret.20250101_120000.snap" = none ∧
    (handleWriteFileWs outsideWorld
      ⟨"write_file", "../secret", "evil", ""⟩).2.fs
      ".keke/snapshots/secret.20250101_120000.snap" = some "data" := by
  decide

/-- The spec's exact-segment exclusion test: some path segment equals an
excluded directory name. -/
def hasExcludedSegment (p : String) : Bool :=
  (strSplitChar p '/').any
    (fun seg => seg = ".keke" || seg = ".git" || seg = "node_modules")

/-- A tree holding a file under a `.github` directory, plus a top-level
`main.go`. -/
def ghTree : Entry :=
  .dir "." [.dir ".github" [.file "ci.yml"], .file "main.go"]

/-- C4: the claim that `list_files` returns exactly the files with no path
segment equal to an excluded directory name fails on the code, which
excludes by SUBSTRING match: in a tree with `.github/ci.yml` and `main.go`,
the walk returns only `main.go`, dropping `.github/ci.yml` although none of
its segments equals `".keke"`, `".git"` or `"node_modules"` (the substring
`".git"` of `".github"` triggers the exclusion).  The spec itself flags this
as a latent defect, so the code, not the claim, is wrong. -/
theorem list_files_substring_exclusion_bug :
    walkEntry "." ghTree = ["main.go"] ∧
    hasExcludedSegment ".github/ci.yml" = false ∧
    ".github/ci.yml" ∉ walkEntry "." ghTree ∧
    hasExcludedSegment "main.go" = false ∧
    "main.go" ∈ walkEntry "." ghTree := by
  decide

/-- C5: restoring a chosen, confirmed snapshot (a record as parsed from the
snapshot directory) makes the file at the record's original path
byte-identical to the snapshot's content and modifies no other file. -/
theorem restore_snapshot_exact (w : World) (snap : SnapshotInfo)
    (content : String)
    (_hparse : parseSnapEntry snap.snapshotFile = some snap)
    (hread : osRead w.fs snap.path = some content) :
    (restoreSnapshot w snap).1 = true ∧
    (restoreSnapshot w snap).2.fs (cleanFilepath snap.originalFile) =
      some content ∧
    ∀ q, q ≠ cleanFilepath snap.originalFile →
      (restoreSnapshot w snap).2.fs q = w.fs q := by
  refine ⟨?_, ?_, fun q hq => ?_⟩
  · simp [restoreSnapshot, hread]
  · simp [restoreSnapshot, hread, wWrite, osWrite, fsUpdate]
  · simp [restoreSnapshot, hread, wWrite, osWrite, fsUpdate, hq]

/-- A filesystem holding one snapshot of `app.go` and the file
`src/app.go` it was taken from. -/
def rollFs : Fs := fun q =>
  if q = ".keke/snapshots/app.go.20250101_120000.snap" then some "snapped"
  else if q = "src/app.go" then some "orig"
  else none

/-- A world ready for a rollback of `app.go`. -/
def rollWorld : World :=
  { fs := rollFs, perms := ⟨true, true, true⟩, userInput := "y",
    prompts := 0, execs := [], readsLog := [], shell := sampleShell,
    tree := sampleTree, ts := "20250101_120000" }

/-- The `SnapshotInfo` record parsed from
`app.go.20250101_120000.snap`. -/
def rollSnap : SnapshotInfo :=
  { originalFile := "app.go", timestamp := "20250101_120000",
    snapshotFile := "app.go.20250101_120000.snap",
    path := ".keke/snapshots/app.go.20250101_120000.snap" }

/-- C5 witness: restoring the concrete snapshot record `rollSnap`. -/
theorem restore_snapshot_exact_witness :
    parseSnapEntry rollSnap.snapshotFile = some rollSnap ∧
    osRead rollWorld.fs rollSnap.path = some "snapped" ∧
    (restoreSnapshot rollWorld rollSnap).1 = true ∧
    (restoreSnapshot rollWorld rollSnap).2.fs
      (cleanFilepath rollSnap.originalFile) = some "snapped" ∧
    (restoreSnapshot rollWorld rollSnap).2.fs "src/app.go" = some "orig" := by
  have h := restore_snapshot_exact rollWorld rollSnap "snapped"
    (by decide) (by decide)
  exact ⟨by decide, by decide, h.1, h.2.1, by decide⟩

/-- C10: a snapshot records only the base name of the written path — any two
paths with equal base names produce the same snapshot file name and key, so
their snapshots fall into one indistinguishable group — and rollback writes
the restored bytes to the bare base name resolved against the working
directory: restoring the snapshot of `src/app.go` writes `app.go` at the
project root (previously absent) and leaves `src/app.go` unchanged. -/
theorem snapshot_basename_collapse (p1 p2 ts : String)
    (hbase : filepathBase p1 = filepathBase p2) :
    snapName p1 ts = snapName p2 ts ∧
    snapKeyOf p1 ts = snapKeyOf p2 ts ∧
    snapName "src/app.go" "20250101_120000" =
      "app.go.20250101_120000.snap" ∧
    parseSnapEntry "app.go.20250101_120000.snap" = some rollSnap ∧
    (restoreSnapshot rollWorld rollSnap).2.fs "app.go" = some "snapped" ∧
    (restoreSnapshot rollWorld rollSnap).2.fs "src/app.go" = some "orig" ∧
    rollWorld.fs "app.go" = none :=
  ⟨by simp [snapName, hbase], by simp [snapKeyOf, snapName, hbase], by decide,
   by decide, by decide, by decide, by decide⟩

/-- C10 witness: `src/app.go` and `lib/app.go` share one snapshot name. -/
theorem snapshot_basename_collapse_witness :
    filepathBase "src/app.go" = filepathBase "lib/app.go" ∧
    snapName "src/app.go" "20250101_120000" =
      snapName "lib/app.go" "20250101_120000" ∧
    snapKeyOf "src/app.go" "20250101_120000" =
      snapKeyOf "lib/app.go" "20250101_120000" := by
  have h := snapshot_basename_collapse "src/app.go" "lib/app.go"
    "20250101_120000" (by decide)
  exact ⟨by decide, h.1, h.2.1⟩

/-- Script round 1: one read action, credit cost 1. -/
def roundOne : AIResponse :=
  { message := "working", actions := [⟨"read_file", "a.txt", "", ""⟩],
    creditsUsed := 1, done := false }

/-- Script round 2: one read action, credit cost 2. -/
def roundTwo : AIResponse :=
  { message := "more", actions := [⟨"read_file", "a.txt", "", ""⟩],
    creditsUsed := 2, done := false }

/-- Script round 3: zero actions, completion flag set, credit cost 4. -/
def roundThree : AIResponse :=
  { message := "done", actions := [], creditsUsed := 4, done := true }

/-- C7: in the scripted scenario — actions in rounds 1 and 2 (credit costs 1
and 2), zero actions with the completion flag in round 3 (credit cost 4) —
the `ask.go` conversation loop does stop after round 3 and it stops at the
20-iteration cap on an endless script, but the credit total it reports is
`response.CreditsUsed` of the final round alone (4), not the sum 7 of
rounds 1-3, although the output is labelled "Total credits used". -/
theorem loop_reports_final_round_credits :
    conversationLoop freshWorld [roundOne, roundTwo, roundThree] =
      .finished 3 4 "done" ∧
    (4 : Nat) ≠ 1 + 2 + 4 ∧
    conversationLoop freshWorld (List.replicate 25 roundOne) =
      .capReached := by
  decide

/-- C9: invoked on a path whose target does not exist, the `ask.go`
`createSnapshot` returns the `os.ReadFile` error — contradicting its own
inline comment — while the tool-call module's version returns nil success;
neither creates any file. -/
theorem create_snapshot_missing_target :
    (createSnapshotAsk freshWorld "new.txt").1 = false ∧
    (createSnapshotCode freshWorld "new.txt").1 = true ∧
    (∀ q, (createSnapshotAsk freshWorld "new.txt").2.fs q =
      freshWorld.fs q) ∧
    (∀ q, (createSnapshotCode freshWorld "new.txt").2.fs q =
      freshWorld.fs q) :=
  ⟨by decide, by decide, fun q => rfl, fun q => rfl⟩

/-- C6 (amended): for every non-empty argument value `v` whose own bytes do
not double-decode to a non-empty primary field, each normalizer parser
extracts the same value from (i) the structured JSON object carrying `v`,
(ii) that object re-encoded as a JSON string payload, and (iii) for the
single-field schemas, the bare JSON string `v` itself; the two-field write
schema agrees between (i) and (ii).  The non-emptiness condition is forced
by the counterexample: for `v = ""` the encodings disagree. -/
theorem normalizer_encoding_agreement (v c b1 b2 b3 s : String)
    (innerV : Option JVal)
    (hv : v ≠ "")
    (hcmd : (innerV.bind unmarshalCmd).getD "" = "")
    (hpath : (innerV.bind unmarshalPath).getD "" = "") :
    parseCommandArgs ⟨b1, some (.jobj [("command", .jstr v)]), none⟩ = v ∧
    parseCommandArgs
      ⟨b2, some (.jstr s), some (.jobj [("command", .jstr v)])⟩ = v ∧
    parseCommandArgs ⟨b3, some (.jstr v), innerV⟩ = v ∧
    parseReadFileArgs ⟨b1, some (.jobj [("path", .jstr v)]), none⟩ = v ∧
    parseReadFileArgs
      ⟨b2, some (.jstr s), some (.jobj [("path", .jstr v)])⟩ = v ∧
    parseReadFileArgs ⟨b3, some (.jstr v), innerV⟩ = v ∧
    parseListFilesArgs ⟨b1, some (.jobj [("path", .jstr v)]), none⟩ = v ∧
    parseListFilesArgs
      ⟨b2, some (.jstr s), some (.jobj [("path", .jstr v)])⟩ = v ∧
    parseListFilesArgs ⟨b3, some (.jstr v), innerV⟩ = v ∧
    parseWriteFileArgs
      ⟨b1, some (.jobj [("path", .jstr v), ("content", .jstr c)]),
        none⟩ = (v, c) ∧
    parseWriteFileArgs
      ⟨b2, some (.jstr s),
        some (.jobj [("path", .jstr v), ("content", .jstr c)])⟩ = (v, c) := by
  refine ⟨?_, ?_, ?_, ?_, ?_, ?_, ?_, ?_, ?_, ?_, ?_⟩
  · simp [parseCommandArgs, unmarshalCmd, unmStrField, hv]
  · simp [parseCommandArgs, parseCommandFallback, unmarshalCmd,
      unmarshalString, unmStrField, hv]
  · have e1 : unmarshalCmd (.jstr v) = none := rfl
    have e2 : unmarshalString (.jstr v) = some v := rfl
    rcases hi : innerV.bind unmarshalCmd with _ | c0
    · simp [parseCommandArgs, parseCommandFallback, e1, e2, hi]
    · rw [hi] at hcmd
      simp only [Option.getD_some] at hcmd
      subst hcmd
      simp [parseCommandArgs, parseCommandFallback, e1, e2, hi]
  · simp [parseReadFileArgs, unmarshalPath, unmStrField, hv]
  · simp [parseReadFileArgs, parseReadFallback, unmarshalPath,
      unmarshalString, unmStrField, hv]
  · have e1 : unmarshalPath (.jstr v) = none := rfl
    have e2 : unmarshalString (.jstr v) = some v := rfl
    rcases hi : innerV.bind unmarshalPath with _ | p0
    · simp [parseReadFileArgs, parseReadFallback, e1, e2, hi, hv]
    · rw [hi] at hpath
      simp only [Option.getD_some] at hpath
      subst hpath
      simp [parseReadFileArgs, parseReadFallback, e1, e2, hi, hv]
  · simp [parseListFilesArgs, unmarshalPath, unmStrField, hv]
  · simp [parseListFilesArgs, parseListFallback, unmarshalPath,
      unmarshalString, unmStrField, hv]
  · have e1 : unmarshalPath (.jstr v) = none := rfl
    have e2 : unmarshalString (.jstr v) = some v := rfl
    rcases hi : innerV.bind unmarshalPath with _ | p0
    · simp [parseListFilesArgs, parseListFallback, e1, e2, hi, hv]
    · rw [hi] at hpath
      simp only [Option.getD_some] at hpath
      subst hpath
      simp [parseListFilesArgs, parseListFallback, e1, e2, hi, hv]
  · simp [parseWriteFileArgs, unmarshalWrite, unmWriteFields, hv]
  · simp [parseWriteFileArgs, parseWriteFallback, unmarshalWrite,
      unmarshalString, unmWriteFields, hv]

/-- C6 witness: the three encodings of the value `ls -la`. -/
theorem normalizer_encoding_agreement_witness :
    ("ls -la" : String) ≠ "" ∧
    ((none : Option JVal).bind unmarshalCmd).getD "" = "" ∧
    parseCommandArgs
      ⟨"x1", some (.jobj [("command", .jstr "ls -la")]), none⟩ = "ls -la" ∧
    parseCommandArgs
      ⟨"x2", some (.jstr "enc"),
        some (.jobj [("command", .jstr "ls -la")])⟩ = "ls -la" ∧
    parseCommandArgs ⟨"x3", some (.jstr "ls -la"), none⟩ = "ls -la" ∧
    parseWriteFileArgs
      ⟨"x4", some (.jobj [("path", .jstr "ls -la"),
        ("content", .jstr "hi")]), none⟩ = ("ls -la", "hi") := by
  have h := normalizer_encoding_agreement "ls -la" "hi" "x1" "x2" "x3" "enc"
    none (by decide) (by decide) (by decide)
  exact ⟨by decide, by decide, h.1, h.2.1, h.2.2.1, h.2.2.2.2.2.2.2.2.2.1⟩

/-- C6 counterexample: for the argument value `v = ""`, the structured
object encoding makes `parseCommandArgs` return the raw payload bytes,
while the bare-string encoding returns `""` — the normalizer does not
extract the same primary field value from all encodings. -/
theorem normalizer_empty_value_disagreement :
    parseCommandArgs
      ⟨"\x7b\"command\":\"\"\x7d", some (.jobj [("command", .jstr "")]),
        none⟩ = "\x7b\"command\":\"\"\x7d" ∧
    parseCommandArgs ⟨"\"\"", some (.jstr ""), none⟩ = "" ∧
    ("\x7b\"command\":\"\"\x7d" : String) ≠ "" := by
  decide

/-- Fallback of the command parser when no decode strategy extracts a
non-empty command: the raw bytes, except for a string (or null) payload,
where the decoded (empty) string content is returned instead. -/
lemma cmd_no_extract (r : RawMsg) (h : ¬ CmdExtracted r) :
    parseCommandArgs r =
      match r.top with
      | some (.jstr _) => ""
      | some .jnull => ""
      | _ => r.bytes := by
  obtain ⟨bytes, top, inner⟩ := r
  unfold CmdExtracted at h
  push_neg at h
  obtain ⟨h1, h2, h3⟩ := h
  simp only at h1 h2 h3
  rcases top with _ | j
  · simp [parseCommandArgs, parseCommandFallback]
  rcases j with _ | b | n | s0 | es | fs
  · have e0 : unmarshalCmd .jnull = some "" := rfl
    have e2 : unmarshalString .jnull = some "" := rfl
    rcases hi : inner.bind unmarshalCmd with _ | c0
    · simp [parseCommandArgs, parseCommandFallback, e0, e2, hi]
    · have hc : c0 = "" := by
        have hx := h2 (by simp [e2])
        rw [hi] at hx
        simpa using hx
      subst hc
      simp [parseCommandArgs, parseCommandFallback, e0, e2, hi]
  · simp [parseCommandArgs, parseCommandFallback, unmarshalCmd,
      unmarshalString]
  · simp [parseCommandArgs, parseCommandFallback, unmarshalCmd,
      unmarshalString]
  · have e1 : unmarshalCmd (.jstr s0) = none := rfl
    have e2 : unmarshalString (.jstr s0) = some s0 := rfl
    have hs : s0 = "" := by
      simpa [e2] using h3
    subst hs
    rcases hi : inner.bind unmarshalCmd with _ | c0
    · simp [parseCommandArgs, parseCommandFallback, e1, e2, hi]
    · have hc : c0 = "" := by
        have hx := h2 (by simp [e2])
        rw [hi] at hx
        simpa using hx
      subst hc
      simp [parseCommandArgs, parseCommandFallback, e1, e2, hi]
  · simp [parseCommandArgs, parseCommandFallback, unmarshalCmd,
      unmarshalString]
  · rcases ho : unmarshalCmd (.jobj fs) with _ | c0
    · simp [parseCommandArgs, parseCommandFallback, unmarshalString, ho]
    · have hc : c0 = "" := by
        rw [Option.some_bind, ho] at h1
        simpa using h1
      subst hc
      simp [parseCommandArgs, parseCommandFallback, unmarshalString, ho]

/-- Fallback of the read/list parsers when no decode strategy extracts a
non-empty path: the default `"."`. -/
lemma path_no_extract (r : RawMsg) (h : ¬ PathExtracted r) :
    parseReadFileArgs r = "." ∧ parseListFilesArgs r = "." := by
  obtain ⟨bytes, top, inner⟩ := r
  unfold PathExtracted at h
  push_neg at h
  obtain ⟨h1, h2, h3⟩ := h
  simp only at h1 h2 h3
  rcases top with _ | j
  · simp [parseReadFileArgs, parseReadFallback, parseListFilesArgs,
      parseListFallback]
  rcases j with _ | b | n | s0 | es | fs
  · have e0 : unmarshalPath .jnull = some "" := rfl
    have e2 : unmarshalString .jnull = some "" := rfl
    rcases hi : inner.bind unmarshalPath with _ | p0
    · simp [parseReadFileArgs, parseReadFallback, parseListFilesArgs,
        parseListFallback, e0, e2, hi]
    · have hp : p0 = "" := by
        have hx := h2 (by simp [e2])
        rw [hi] at hx
        simpa using hx
      subst hp
      simp [parseReadFileArgs, parseReadFallback, parseListFilesArgs,
        parseListFallback, e0, e2, hi]
  · simp [parseReadFileArgs, parseReadFallback, parseListFilesArgs,
      parseListFallback, unmarshalPath, unmarshalString]
  · simp [parseReadFileArgs, parseReadFallback, parseListFilesArgs,
      parseListFallback, unmarshalPath, unmarshalString]
  · have e1 : unmarshalPath (.jstr s0) = none := rfl
    have e2 : unmarshalString (.jstr s0) = some s0 := rfl
    have hs : s0 = "" := by
      simpa [e2] using h3
    subst hs
    rcases hi : inner.bind unmarshalPath with _ | p0
    · simp [parseReadFileArgs, parseReadFallback, parseListFilesArgs,
        parseListFallback, e1, e2, hi]
    · have hp : p0 = "" := by
        have hx := h2 (by simp [e2])
        rw [hi] at hx
        simpa using hx
      subst hp
      simp [parseReadFileArgs, parseReadFallback, parseListFilesArgs,
        parseListFallback, e1, e2, hi]
  · simp [parseReadFileArgs, parseReadFallback, parseListFilesArgs,
      parseListFallback, unmarshalPath, unmarshalString]
  · rcases ho : unmarshalPath (.jobj fs) with _ | p0
    · simp [parseReadFileArgs, parseReadFallback, parseListFilesArgs,
        parseListFallback, unmarshalString, ho]
    · have hp : p0 = "" := by
        rw [Option.some_bind, ho] at h1
        simpa using h1
      subst hp
      simp [parseReadFileArgs, parseReadFallback, parseListFilesArgs,
        parseListFallback, unmarshalString, ho]

/-- Fallback of the write parser when no decode strategy extracts a
non-empty path: the path is empty, and the content is whatever the double
decode produced (empty unless a string payload double-decodes to an object
with an empty path and non-empty content). -/
lemma write_no_extract (r : RawMsg) (h : ¬ WriteExtracted r) :
    (parseWriteFileArgs r).1 = "" ∧
    (parseWriteFileArgs r).2 =
      match r.top.bind unmarshalString, r.inner.bind unmarshalWrite with
      | some _, some pc => pc.2
      | _, _ => "" := by
  obtain ⟨bytes, top, inner⟩ := r
  unfold WriteExtracted at h
  push_neg at h
  obtain ⟨h1, h2⟩ := h
  simp only at h1 h2
  rcases top with _ | j
  · simp [parseWriteFileArgs, parseWriteFallback]
  rcases j with _ | b | n | s0 | es | fs
  · have e0 : unmarshalWrite .jnull = some ("", "") := rfl
    have e2 : unmarshalString .jnull = some "" := rfl
    rcases hi : inner.bind unmarshalWrite with _ | pc
    · simp [parseWriteFileArgs, parseWriteFallback, e0, e2, hi]
    · have hp : pc.1 = "" := by
        have hx := h2 (by simp [e2])
        rw [hi] at hx
        simpa using hx
      simp [parseWriteFileArgs, parseWriteFallback, e0, e2, hi, hp]
  · simp [parseWriteFileArgs, parseWriteFallback, unmarshalWrite,
      unmarshalString]
  · simp [parseWriteFileArgs, parseWriteFallback, unmarshalWrite,
      unmarshalString]
  · have e1 : unmarshalWrite (.jstr s0) = none := rfl
    have e2 : unmarshalString (.jstr s0) = some s0 := rfl
    rcases hi : inner.bind unmarshalWrite with _ | pc
    · simp [parseWriteFileArgs, parseWriteFallback, e1, e2, hi]
    · have hp : pc.1 = "" := by
        have hx := h2 (by simp [e2])
        rw [hi] at hx
        simpa using hx
      simp [parseWriteFileArgs, parseWriteFallback, e1, e2, hi, hp]
  · simp [parseWriteFileArgs, parseWriteFallback, unmarshalWrite,
      unmarshalString]
  · rcases ho : unmarshalWrite (.jobj fs) with _ | pc
    · simp [parseWriteFileArgs, parseWriteFallback, unmarshalString, ho]
    · have hp : pc.1 = "" := by
        rw [Option.some_bind, ho] at h1
        simpa using h1
      simp [parseWriteFileArgs, parseWriteFallback, unmarshalString, ho, hp]

/-- C8 (amended): every parser is a total function (never raises, by
construction).  When no decode strategy extracts a non-empty primary
field: the read/list parsers return the default `"."`; the command parser
returns the raw bytes as a string unless the payload itself decodes to a
JSON string (necessarily of empty content here) or null, in which case it
returns that decoded empty string instead of the raw bytes; and the
two-field write parser returns an empty path with a content that is empty
unless the double-decoded object carried one.  The exceptions are forced by
the counterexample. -/
theorem parser_fallback_values (r : RawMsg) :
    (¬ CmdExtracted r →
      parseCommandArgs r =
        match r.top with
        | some (.jstr _) => ""
        | some .jnull => ""
        | _ => r.bytes) ∧
    (¬ PathExtracted r →
      parseReadFileArgs r = "." ∧ parseListFilesArgs r = ".") ∧
    (¬ WriteExtracted r →
      (parseWriteFileArgs r).1 = "" ∧
      (parseWriteFileArgs r).2 =
        match r.top.bind unmarshalString, r.inner.bind unmarshalWrite with
        | some _, some pc => pc.2
        | _, _ => "") :=
  ⟨fun h => cmd_no_extract r h, fun h => path_no_extract r h,
   fun h => write_no_extract r h⟩

/-- C8 witness: the JSON array payload `[]`, from which nothing is
extractable. -/
theorem parser_fallback_values_witness :
    ¬ CmdExtracted ⟨"[]", some (.jarr []), none⟩ ∧
    ¬ PathExtracted ⟨"[]", some (.jarr []), none⟩ ∧
    ¬ WriteExtracted ⟨"[]", some (.jarr []), none⟩ ∧
    parseCommandArgs ⟨"[]", some (.jarr []), none⟩ = "[]" ∧
    parseReadFileArgs ⟨"[]", some (.jarr []), none⟩ = "." ∧
    parseListFilesArgs ⟨"[]", some (.jarr []), none⟩ = "." ∧
    (parseWriteFileArgs ⟨"[]", some (.jarr []), none⟩).1 = "" ∧
    (parseWriteFileArgs ⟨"[]", some (.jarr []), none⟩).2 = "" := by
  have h := parser_fallback_values ⟨"[]", some (.jarr []), none⟩
  exact ⟨by decide, by decide, by decide, h.1 (by decide),
    (h.2.1 (by decide)).1, (h.2.1 (by decide)).2,
    (h.2.2 (by decide)).1, (h.2.2 (by decide)).2⟩

/-- C8 counterexample: for the payload bytes `""` (a JSON-encoded empty
string), no strategy extracts a command, yet `parseCommandArgs` returns the
decoded empty string, not the raw two-character payload bytes — refuting
"the command parser returns the raw bytes as a string". -/
theorem command_fallback_not_raw_bytes :
    ¬ CmdExtracted ⟨"\"\"", some (.jstr ""), none⟩ ∧
    parseCommandArgs ⟨"\"\"", some (.jstr ""), none⟩ = "" ∧
    ("" : String) ≠ "\"\"" := by
  decide

end Keke
